import Mathlib

/-!
Verification of the reconciliation engine of the angular2-json-schema-form
component (src/library/json-schema-form.component.ts).

The JSON-like data handled by the component is embedded as the inductive
type Json below.  Functions of the component itself (initializeForm,
submitForm, the value-change subscription, the reference-resolution
callback and the alternate-layout merge callback) are translated directly
from the source.  Utility functions that the component imports from
modules outside the provided source (JsonPointer operations, lodash
helpers, formatFormData and the schema/layout builders) are modelled from
the specification; each such definition carries a doc comment saying so.
-/

set_option autoImplicit false

/-- A JSON-like value: the data model of the form engine.  JavaScript
objects are represented as ordered association lists (insertion order is
observable in JS and in the component), undefined and null are both
represented by the null constructor. -/
inductive Json where
  | null : Json
  | bool : Bool → Json
  | num : Int → Json
  | str : String → Json
  | arr : List Json → Json
  | obj : List (String × Json) → Json

instance : Inhabited Json := ⟨Json.null⟩

namespace JsonForm

/-- First-match lookup in an association list, as JS property access on a
plain object (keys are unique in values that come from real JSON). -/
def lookupKey : List (String × Json) → String → Option Json
  | [], _ => none
  | (k0, v0) :: rest, k => if k0 = k then some v0 else lookupKey rest k

/-- JS property assignment on a plain object: an existing key keeps its
position and gets the new value, a new key is appended at the end. -/
def upsert : List (String × Json) → String → Json → List (String × Json)
  | [], k, v => [(k, v)]
  | (k0, v0) :: rest, k, v =>
      if k0 = k then (k0, v) :: rest else (k0, v0) :: upsert rest k v

/-- JS delete of a property. -/
def removePair : List (String × Json) → String → List (String × Json)
  | [], _ => []
  | (k0, v0) :: rest, k =>
      if k0 = k then rest else (k0, v0) :: removePair rest k

/-- Property read on a Json value, none when the value is not an object
or the key is missing. -/
def getKey : Json → String → Option Json
  | Json.obj kvs, k => lookupKey kvs k
  | _, _ => none

/-- JS member access value.key, yielding null (undefined) when absent. -/
def jsAccess (v : Json) (k : String) : Json :=
  (getKey v k).getD Json.null

/-- Utility hasOwn from the component's imports: property present on an
object (false on every non-object, as the utility guards its argument). -/
def hasOwn (v : Json) (k : String) : Bool :=
  (getKey v k).isSome

/-- Property write on a Json value; on a non-object the write is lost,
as the component only applies it to objects. -/
def setKey (v : Json) (k : String) (x : Json) : Json :=
  match v with
  | Json.obj kvs => Json.obj (upsert kvs k x)
  | _ => v

/-- JS delete value[key] on a Json value. -/
def removeKey (v : Json) (k : String) : Json :=
  match v with
  | Json.obj kvs => Json.obj (removePair kvs k)
  | _ => v

/-- Utility isObject: a plain (non-array) object. -/
def isObject : Json → Bool
  | Json.obj _ => true
  | _ => false

/-- Utility isArray. -/
def isArray : Json → Bool
  | Json.arr _ => true
  | _ => false

/-- Utility isString. -/
def isString : Json → Bool
  | Json.str _ => true
  | _ => false

/-- Utility isEmpty (lodash semantics): an object or array with no
entries is empty, null and primitives are empty, a non-empty string is
not. -/
def isEmpty : Json → Bool
  | Json.null => true
  | Json.bool _ => true
  | Json.num _ => true
  | Json.str s => s = ""
  | Json.arr xs => xs.isEmpty
  | Json.obj kvs => kvs.isEmpty

/-- JavaScript truthiness of a Json value (undefined and null are falsy,
zero, empty string and false are falsy, every object and array is
truthy). -/
def truthy : Json → Bool
  | Json.null => false
  | Json.bool b => b
  | Json.num n => n ≠ 0
  | Json.str s => s ≠ ""
  | Json.arr _ => true
  | Json.obj _ => true

/-- Modelled from the spec: the hasValue utility is not under the
provided source; a value is present when it is neither null, undefined
nor the empty string. -/
def hasValue : Json → Bool
  | Json.null => false
  | Json.str s => s ≠ ""
  | _ => true

/-- Presence test for a pointer or reference string. -/
def hasValueStr (s : String) : Bool := s ≠ ""

/-- Strict equality of a Json value with a string literal. -/
def isStrVal (v : Json) (s : String) : Bool :=
  match v with
  | Json.str t => t = s
  | _ => false

/-- Object.assign target source: source keys override target keys, new
keys are appended in source order; when the target is not an object its
boxed copy receives exactly the source keys. -/
def mergeObj (t s : Json) : Json :=
  match t, s with
  | Json.obj tk, Json.obj sk =>
      Json.obj (sk.foldl (fun acc kv => upsert acc kv.1 kv.2) tk)
  | _, Json.obj sk => Json.obj sk
  | _, _ => t

/-- Lodash cloneDeep: a deep copy, which on immutable values is the
value itself. -/
def cloneDeep (v : Json) : Json := v

/-- Splitting a character list at every slash, keeping empty segments,
as String.split does on the slash separator. -/
def splitSlash (cs : List Char) (acc : List Char) : List String :=
  match cs with
  | [] => [String.mk acc.reverse]
  | c :: rest =>
      if c = '/' then String.mk acc.reverse :: splitSlash rest []
      else splitSlash rest (c :: acc)

/-- Leading-match test of a pattern against a character list. -/
def leadMatch : List Char → List Char → Bool
  | [], _ => true
  | _ :: _, [] => false
  | p :: ps, c :: cs => p = c && leadMatch ps cs

/-- Replacement of every occurrence of a non-empty pattern, scanning
left to right without overlap, with enough fuel to consume the whole
list. -/
def substChars (pat rep : List Char) : Nat → List Char → List Char
  | 0, cs => cs
  | _ + 1, [] => []
  | fuel + 1, c :: cs =>
      if leadMatch pat (c :: cs) then
        rep ++ substChars pat rep fuel ((c :: cs).drop pat.length)
      else c :: substChars pat rep fuel cs

/-- Replace every occurrence of a pattern in a string, as the JS global
regex replace of the component does for its literal patterns. -/
def strReplace (s pat rep : String) : String :=
  String.mk (substChars pat.toList rep.toList s.toList.length s.toList)

namespace JsonPointer

/-- Modelled from the spec: split a JSON Pointer string into its
segments, so that the root pointer has no segment and /properties/name
has segments properties and name. -/
def parse (pointer : String) : List String :=
  if pointer = "" then [] else (splitSlash pointer.toList []).drop 1

/-- Modelled from the spec: normalize a reference string such as a
fragment reference into a canonical pointer string by stripping the
leading hash mark. -/
def compile (ref : String) : String :=
  match ref.toList with
  | '#' :: rest => String.mk rest
  | _ => ref

/-- Segment-list prefix test: the first list is an initial segment of
the second (so it designates the same node or an ancestor of it). -/
def ancestorOrSelf : List String → List String → Bool
  | [], _ => true
  | _, [] => false
  | a :: as, b :: bs => a = b && ancestorOrSelf as bs

/-- Modelled from the spec: isSubPointer decides whether the first
pointer designates an ancestor of (or the same node as) the second. -/
def isSubPointer (ref pointer : String) : Bool :=
  ancestorOrSelf (parse ref) (parse pointer)

/-- Modelled from the spec: read the value a pointer designates in a
Json tree, none when the path does not exist. -/
def jGet : Json → List String → Option Json
  | v, [] => some v
  | Json.obj kvs, k :: rest =>
      match lookupKey kvs k with
      | some child => jGet child rest
      | none => none
  | Json.arr xs, k :: rest =>
      match k.toNat? with
      | some i =>
          match xs[i]? with
          | some child => jGet child rest
          | none => none
      | none => none
  | _, _ :: _ => none

/-- Modelled from the spec: JsonPointer.has, true when the pointer
designates an existing location. -/
def jHas (v : Json) (p : List String) : Bool :=
  (jGet v p).isSome

/-- Modelled from the spec: write a value at a pointer, creating any
missing intermediate containers along the path. -/
def jSet : Json → List String → Json → Json
  | _, [], x => x
  | Json.obj kvs, k :: rest, x =>
      match lookupKey kvs k with
      | some child => Json.obj (upsert kvs k (jSet child rest x))
      | none => Json.obj (kvs ++ [(k, jSet (Json.obj []) rest x)])
  | Json.arr xs, k :: rest, x =>
      match k.toNat? with
      | some i =>
          if h : i < xs.length then
            Json.arr (xs.set i (jSet xs[i] rest x))
          else Json.obj [(k, jSet (Json.obj []) rest x)]
      | none => Json.obj [(k, jSet (Json.obj []) rest x)]
  | _, k :: rest, x => Json.obj [(k, jSet (Json.obj []) rest x)]

/-- Modelled from the spec: the last segment of a pointer, the key of
the location it designates. -/
def toKey (pointer : String) : String :=
  (parse pointer).getLastD ""

end JsonPointer

/-- Modelled from the spec: getSchemaReference resolves a normalized
pointer by looking the target up from the schema root. -/
def getSchemaReference (schema : Json) (ref : String) : Json :=
  (JsonPointer.jGet schema (JsonPointer.parse ref)).getD Json.null

/-- Upsert into a string-to-string map, as Map.set of the circular
reference maps. -/
def mapSet : List (String × String) → String → String → List (String × String)
  | [], k, v => [(k, v)]
  | (k0, v0) :: rest, k, v =>
      if k0 = k then (k0, v) :: rest else (k0, v0) :: mapSet rest k v

/-- Lookup in a string-to-string map. -/
def mapGet : List (String × String) → String → Option String
  | [], _ => none
  | (k0, v0) :: rest, k => if k0 = k then some v0 else mapGet rest k

/-- State threaded through the reference-resolution pass: the schema
tree being rewritten, the reference library, and the circular-reference
pairs recorded during this pass in traversal order. -/
structure ResolveState where
  schema : Json
  refLib : List (String × Json)
  circPairs : List (String × String)

/-- The idempotent reference-library insertion of the $ref callback
(source lines 222-228): a presence-checked pointer is resolved from the
schema root and stored at most once. -/
def refLibStep (newReference : String) (st : ResolveState) : ResolveState :=
  if hasValueStr newReference && (lookupKey st.refLib newReference).isNone then
    { st with refLib :=
        st.refLib ++ [(newReference, getSchemaReference st.schema newReference)] }
  else st

/-- The body of the $ref callback of initializeForm (source lines
219-243), continued: after the idempotent library insertion, either
inline a deep copy of the library entry merged with the sibling keys
(non-circular) or record the pointer pair (circular). -/
def refStep (value : Json) (pointer : String) (st : ResolveState) : ResolveState :=
  match getKey value "$ref" with
  | some (Json.str r) =>
      let newReference := JsonPointer.compile r
      let isCircular := JsonPointer.isSubPointer newReference pointer
      let st1 := refLibStep newReference st
      if !isCircular then
        let libEntry := (lookupKey st1.refLib newReference).getD Json.null
        let merged := mergeObj (cloneDeep libEntry) (removeKey value "$ref")
        { st1 with schema := JsonPointer.jSet st1.schema (JsonPointer.parse pointer) merged }
      else
        { st1 with circPairs := st1.circPairs ++ [(pointer, newReference)] }
  | _ => st

mutual

/-- Modelled from the spec: JsonPointer.forEachDeep applied to the $ref
callback, a depth-first traversal applying refStep at every node of the
original tree (spliced-in subtrees are not revisited, references are
resolved in one pass). -/
def resolveVisit (value : Json) (pointer : String) (st : ResolveState) : ResolveState :=
  match value with
  | Json.obj kvs => resolveVisitFields kvs pointer (refStep (Json.obj kvs) pointer st)
  | Json.arr xs => resolveVisitItems xs 0 pointer (refStep (Json.arr xs) pointer st)
  | v => refStep v pointer st
termination_by structural value

/-- Traversal over the fields of an object node. -/
def resolveVisitFields (kvs : List (String × Json)) (pointer : String) (st : ResolveState) : ResolveState :=
  match kvs with
  | [] => st
  | (k, v) :: rest =>
      resolveVisitFields rest pointer (resolveVisit v (pointer ++ "/" ++ k) st)
termination_by structural kvs

/-- Traversal over the items of an array node. -/
def resolveVisitItems (xs : List Json) (i : Nat) (pointer : String) (st : ResolveState) : ResolveState :=
  match xs with
  | [] => st
  | x :: rest =>
      resolveVisitItems rest (i + 1) pointer (resolveVisit x (pointer ++ "/" ++ toString i) st)
termination_by structural xs

end

/-- The whole reference-resolution pass of initializeForm, starting from
an empty reference library (it was reset on entry) and an empty pair
list for this pass. -/
def resolveRefs (schema : Json) : ResolveState :=
  resolveVisit schema "" { schema := schema, refLib := [], circPairs := [] }

/-- The JSON-shorthand normalization of initializeForm (source lines
196-209), applied to a non-empty schema: add a missing object type when
a properties map is present, otherwise wrap a value lacking a proper
object type-plus-properties pairing as a flat properties bag, flagging
JSON Form compatibility.  Returns the normalized schema and whether the
compatibility flag was set. -/
def normalizeSchemaShorthand (schema : Json) : Json × Bool :=
  if !(hasOwn schema "type") && hasOwn schema "properties" &&
      isObject (jsAccess schema "properties") then
    (setKey schema "type" (Json.str "object"), false)
  else if !(hasOwn schema "type") || !(isStrVal (jsAccess schema "type") "object") ||
      !(hasOwn schema "properties") then
    (Json.obj [("type", Json.str "object"), ("properties", schema)], true)
  else (schema, false)

/-- Modelled from the spec: conversion of a version-3 JSON Schema to
version 4; the spec does not describe it and on draft-4 input it leaves
the schema unchanged. -/
def convertJsonSchema3to4 (schema : Json) : Json := schema

/-- The pointer translation of the alternate-layout merge (source lines
292-294): each step of the hint pointer becomes a properties step, then
the items and titleMap translations are undone. -/
def translatePointer (pointer : String) : String :=
  strReplace (strReplace (strReplace pointer "/" "/properties/")
      "/properties/items/properties/" "/items/properties/")
    "/properties/titleMap/properties/" "/titleMap/properties/"

/-- The body of the alternate-layout callback of initializeForm (source
lines 292-314): translate the hint pointer into a schema pointer, aim
ui:order at the translated pointer itself and every other hint at the
x-schema-form bag of the enclosing group with any ui: prefix stripped,
then copy the hint value only when the group exists and nothing exists
yet at the target location. -/
def hintStep (schema : Json) (pointer : String) (value : Json) : Json :=
  let schemaPointer := translatePointer pointer
  if hasValue value && hasValueStr pointer then
    let groupPointer := (JsonPointer.parse schemaPointer).dropLast.dropLast
    let key := JsonPointer.toKey schemaPointer
    let itemPointer : List String :=
      if key = "ui:order" then JsonPointer.parse schemaPointer
      else groupPointer ++ ["x-schema-form",
        if key.take 3 = "ui:" then key.drop 3 else key]
    if JsonPointer.jHas schema groupPointer && !(JsonPointer.jHas schema itemPointer) then
      JsonPointer.jSet schema itemPointer value
    else schema
  else schema

mutual

/-- Modelled from the spec: JsonPointer.forEachDeep applied to the
alternate-layout callback, a depth-first traversal applying hintStep at
every node of the hint document. -/
def hintVisit (value : Json) (pointer : String) (schema : Json) : Json :=
  match value with
  | Json.obj kvs => hintVisitFields kvs pointer (hintStep schema pointer (Json.obj kvs))
  | Json.arr xs => hintVisitItems xs 0 pointer (hintStep schema pointer (Json.arr xs))
  | v => hintStep schema pointer v
termination_by structural value

/-- Traversal over the fields of a hint object node. -/
def hintVisitFields (kvs : List (String × Json)) (pointer : String) (schema : Json) : Json :=
  match kvs with
  | [] => schema
  | (k, v) :: rest =>
      hintVisitFields rest pointer (hintVisit v (pointer ++ "/" ++ k) schema)
termination_by structural kvs

/-- Traversal over the items of a hint array node. -/
def hintVisitItems (xs : List Json) (i : Nat) (pointer : String) (schema : Json) : Json :=
  match xs with
  | [] => schema
  | x :: rest =>
      hintVisitItems rest (i + 1) pointer (hintVisit x (pointer ++ "/" ++ toString i) schema)
termination_by structural xs

end

/-- The alternate-layout merge loop of initializeForm (source lines
290-317). -/
def mergeAlternateLayout (schema alt : Json) : Json :=
  hintVisit alt "" schema

/-- Modelled from the spec: fixJsonFormOptions normalizes legacy JSON
Form option keys in place; the spec gives no details of the rewriting,
so it is treated as returning its argument's value. -/
def fixJsonFormOptions (layout : Json) : Json := layout

/-- The inputs of the component that initializeForm reads.  An absent
input is Json.null (undefined). -/
structure Inputs where
  schema : Json := Json.null
  layout : Json := Json.null
  data : Json := Json.null
  options : Json := Json.null
  form : Json := Json.null
  model : Json := Json.null
  JSONSchema : Json := Json.null
  UISchema : Json := Json.null
  formData : Json := Json.null
  debug : Bool := false

/-- The guard of initializeForm (source lines 132-135): at least one of
the six schema, layout, data, form, JSONSchema, UISchema inputs is
truthy. -/
def inputsPresent (inp : Inputs) : Bool :=
  truthy inp.schema || truthy inp.layout || truthy inp.data ||
  truthy inp.form || truthy inp.JSONSchema || truthy inp.UISchema

/-- Schema selection (source lines 178-191): first available among the
direct schema input, form.schema, JSONSchema, form.JSONSchema, and the
form object itself when it carries a properties map.  Returns the chosen
schema together with the Angular and React compatibility flags the
branch sets. -/
def pickSchema (inp : Inputs) : Json × Bool × Bool :=
  if isObject inp.schema then (inp.schema, true, false)
  else if hasOwn inp.form "schema" && isObject (jsAccess inp.form "schema") then
    (jsAccess inp.form "schema", false, false)
  else if isObject inp.JSONSchema then (inp.JSONSchema, false, true)
  else if hasOwn inp.form "JSONSchema" && isObject (jsAccess inp.form "JSONSchema") then
    (jsAccess inp.form "JSONSchema", false, true)
  else if hasOwn inp.form "properties" && isObject (jsAccess inp.form "properties") then
    (inp.form, false, false)
  else (Json.obj [], false, false)

/-- The default layout of initializeForm (source line 266). -/
def defaultLayout : Json :=
  Json.arr [Json.str "*",
    Json.obj [("type", Json.str "submit"), ("title", Json.str "Submit")]]

/-- Layout selection (source lines 254-267): first available array among
the direct layout input, the form object itself, form.form (with the
JSON Form option fix applied) and form.layout, with the default layout
as fallback.  Returns the chosen layout together with the Angular and
JSON Form compatibility flags the branch sets. -/
def pickLayout (inp : Inputs) : Json × Bool × Bool :=
  if isArray inp.layout then (inp.layout, false, false)
  else if isArray inp.form then (inp.form, true, false)
  else if truthy inp.form && isArray (jsAccess inp.form "form") then
    (fixJsonFormOptions (jsAccess inp.form "form"), false, true)
  else if truthy inp.form && isArray (jsAccess inp.form "layout") then
    (jsAccess inp.form "layout", false, false)
  else (defaultLayout, false, false)

/-- Alternate-layout selection (source lines 276-287): UISchema,
form.UISchema, or form.customFormItems (with the JSON Form option fix),
else null.  Returns the chosen document together with the React and
JSON Form compatibility flags the branch sets. -/
def pickAlternateLayout (inp : Inputs) : Json × Bool × Bool :=
  if isObject inp.UISchema then (inp.UISchema, true, false)
  else if hasOwn inp.form "UISchema" then (jsAccess inp.form "UISchema", true, false)
  else if hasOwn inp.form "customFormItems" then
    (fixJsonFormOptions (jsAccess inp.form "customFormItems"), false, true)
  else (Json.null, false, false)

/-- Initial-values selection (source lines 328-344): first available
object among data, model, form.value, form.data, formData and
form.formData.  Returns the chosen values together with the Angular,
React and JSON Form compatibility flags the branch sets. -/
def pickData (inp : Inputs) : Json × Bool × Bool × Bool :=
  if isObject inp.data then (inp.data, false, false, false)
  else if isObject inp.model then (inp.model, true, false, false)
  else if isObject inp.form && isObject (jsAccess inp.form "value") then
    (jsAccess inp.form "value", false, false, true)
  else if isObject inp.form && isObject (jsAccess inp.form "data") then
    (jsAccess inp.form "data", false, false, false)
  else if isObject inp.formData then (inp.formData, false, true, false)
  else if hasOwn inp.form "formData" && isObject (jsAccess inp.form "formData") then
    (jsAccess inp.form "formData", false, true, false)
  else (Json.obj [], false, false, false)

/-- Wildcard test of the layout (source line 349): the top-level layout
array contains the literal string star entry. -/
def hasStar (layout : Json) : Bool :=
  match layout with
  | Json.arr xs => xs.any (fun x => isStrVal x "*")
  | _ => false

/-- Modelled from the spec: buildSchemaFromLayout derives a schema whose
properties are inferred one-to-one from the layout's field keys,
defaulting each field's type to string unless a type hint is present in
the layout. -/
def buildSchemaFromLayout (layout : Json) : Json :=
  match layout with
  | Json.arr xs =>
      let fields := xs.filterMap (fun item =>
        match getKey item "key" with
        | some (Json.str k) =>
            some (k, Json.obj [("type",
              match getKey item "type" with
              | some (Json.str t) => Json.str t
              | _ => Json.str "string")])
        | _ => none)
      Json.obj [("type", Json.str "object"), ("properties", Json.obj fields)]
  | _ => Json.obj []

mutual

/-- Modelled from the spec: buildSchemaFromData infers a schema from the
shape and value-types of the initial data; objects map to object schemas
with properties inferred per entry, arrays to array schemas with the
item type inferred from the first element, primitives to their
JSON-Schema type. -/
def buildSchemaFromData (data : Json) : Json :=
  match data with
  | Json.obj kvs =>
      Json.obj [("type", Json.str "object"),
        ("properties", Json.obj (buildSchemaFromDataFields kvs))]
  | Json.arr (x :: _) =>
      Json.obj [("type", Json.str "array"), ("items", buildSchemaFromData x)]
  | Json.arr [] => Json.obj [("type", Json.str "array")]
  | Json.str _ => Json.obj [("type", Json.str "string")]
  | Json.num _ => Json.obj [("type", Json.str "number")]
  | Json.bool _ => Json.obj [("type", Json.str "boolean")]
  | Json.null => Json.obj [("type", Json.str "null")]
termination_by structural data

/-- Schema inference over the fields of a data object. -/
def buildSchemaFromDataFields (kvs : List (String × Json)) : List (String × Json) :=
  match kvs with
  | [] => []
  | (k, v) :: rest => (k, buildSchemaFromData v) :: buildSchemaFromDataFields rest
termination_by structural kvs

end

/-- Schema synthesis when the schema is empty (source lines 346-356):
from the layout when it holds no wildcard entry, else from non-empty
initial values, else the schema stays empty. -/
def synthesizeSchema (schema layout initialValues : Json) : Json :=
  if isEmpty schema then
    if !(hasStar layout) then buildSchemaFromLayout layout
    else if !(isEmpty initialValues) then buildSchemaFromData initialValues
    else schema
  else schema

/-- Modelled from the spec: buildFormGroupTemplate builds the
reactive-binding template from the resolved schema and the initial
values; control construction itself is external to the provided
source. -/
def buildFormGroupTemplate (schema initialValues : Json) : Json :=
  Json.obj [("schema", schema), ("value", initialValues)]

/-- Modelled from the spec: buildFormGroup builds the live form group
from the template; its snapshot value is the seeded value of the
template. -/
def buildFormGroup (template : Json) : Json :=
  Json.obj [("value", jsAccess template "value")]

/-- Modelled from the spec: the DataMapper populates dataMap with one
entry per schema property, linking the data path to its schema
pointer. -/
def buildDataMap (schema : Json) : List (String × Json) :=
  match jsAccess schema "properties" with
  | Json.obj kvs => kvs.map (fun kv =>
      ("/" ++ kv.1, Json.obj [("schemaPointer", Json.str ("/properties/" ++ kv.1))]))
  | _ => []

/-- Modelled from the spec: buildLayout expands every wildcard entry of
the chosen layout, at the position it occurs, into one node per schema
property, and keeps every other entry. -/
def buildLayout (schema layout : Json) : Json :=
  match layout with
  | Json.arr xs =>
      Json.arr (xs.flatMap (fun item =>
        if isStrVal item "*" then
          match jsAccess schema "properties" with
          | Json.obj kvs => kvs.map (fun kv => Json.obj [("key", Json.str kv.1)])
          | _ => []
        else [item]))
  | _ => layout

/-- The maps consumed by formatFormData: dataMap, the circular-reference
map and the arrayMap. -/
structure FormMaps where
  dataMap : List (String × Json)
  circMap : List (String × String)
  arrayMap : List (String × Nat)

/-- One reconstruction step of formatFormData: read the live control
value at the entry's data path and write it at the same output path,
truncating an array value to the item count recorded in arrayMap when
one is present; a path absent from the live values is skipped.  The maps
are threaded through unchanged. -/
def formatStep (values : Json) (entry : String × Json) (maps : FormMaps) (acc : Json) :
    Json × FormMaps :=
  let path := JsonPointer.parse entry.1
  match JsonPointer.jGet values path with
  | some (Json.arr xs) =>
      let xs1 :=
        match (maps.arrayMap.filter (fun kv => kv.1 = entry.1)).head? with
        | some kv => xs.take kv.2
        | none => xs
      (JsonPointer.jSet acc path (Json.arr xs1), maps)
  | some v => (JsonPointer.jSet acc path v, maps)
  | none => (acc, maps)

/-- The loop of formatFormData over the dataMap entries, threading the
maps through every step. -/
def formatSteps (values : Json) : List (String × Json) → FormMaps → Json → Json × FormMaps
  | [], maps, acc => (acc, maps)
  | entry :: rest, maps, acc =>
      let r := formatStep values entry maps acc
      formatSteps values rest r.2 r.1

/-- Modelled from the spec: formatFormData (not under the provided
source) reconstructs the nested output object from the current control
values and the dataMap, expanding array paths according to the counts
recorded in arrayMap; a path that is the source of a circular-reference
entry keeps the literal recursive value already present in the live
controls, which is exactly what copying the live value does, so the
circular map is read by no step.  The final-submission flag only marks
the output for the validation adapter and changes no data, so the
reconstruction ignores it.  The threaded result exposes the maps after
the call. -/
def formatFormDataFull (values : Json) (maps : FormMaps) (finalSubmit : Bool) :
    Json × FormMaps :=
  formatSteps values maps.dataMap maps (Json.obj [])

/-- The output object of formatFormData. -/
def formatFormData (values : Json) (dataMap : List (String × Json))
    (circMap : List (String × String)) (arrayMap : List (String × Nat))
    (finalSubmit : Bool) : Json :=
  let maps : FormMaps := {
    dataMap := dataMap
    circMap := circMap
    arrayMap := arrayMap }
  (formatFormDataFull values maps finalSubmit).1

/-- The engine-owned structures of the shared service that initializeForm
rebuilds or reuses (the fields of this.jsf the component touches). -/
structure JsfState where
  schema : Json := Json.obj []
  layout : Json := Json.arr []
  initialValues : Json := Json.obj []
  dataMap : List (String × Json) := []
  schemaRefLibrary : List (String × Json) := []
  layoutRefLibrary : List (String × Json) := []
  formGroupTemplate : Json := Json.obj []
  formGroup : Option Json := none
  schemaCircularRefMap : List (String × String) := []
  dataCircularRefMap : List (String × String) := []
  arrayMap : List (String × Nat) := []
  globalOptions : Json := Json.obj []
  angularCompatFlag : Bool := false
  reactCompatFlag : Bool := false
  jsonFormCompatFlag : Bool := false

/-- The state of the component itself: the service state, the rendering
trigger and the compiled validator, recorded as the schema it was
compiled from. -/
structure CState where
  jsf : JsfState := {}
  formInitialized : Bool := false
  validateFormData : Option Json := none

/-- The outward events the component emits, with the validated events
recording which compiled schema the validator was built from. -/
inductive Event where
  | compiled : Json → Event
  | onChanges : Json → Event
  | validated : Json → Json → Event
  | onSubmit : Json → Event

/-- True exactly on a compiled event. -/
def isCompiledEvent : Event → Bool
  | Event.compiled _ => true
  | _ => false

/-- True exactly on an onChanges event. -/
def isOnChangesEvent : Event → Bool
  | Event.onChanges _ => true
  | _ => false

/-- True exactly on a validated event. -/
def isValidatedEvent : Event → Bool
  | Event.validated _ _ => true
  | _ => false

/-- The global-options merge of initializeForm (source lines 150-162):
the debug input, then the options input, then form.options. -/
def optionsPhase (inp : Inputs) (prev : Json) : Json :=
  let o1 := mergeObj prev (Json.obj [("debug", Json.bool inp.debug)])
  let o2 := if isObject inp.options then mergeObj o1 inp.options else o1
  if isObject inp.form && isObject (jsAccess inp.form "options") then
    mergeObj o2 (jsAccess inp.form "options")
  else o2

/-- The initial emissions of initializeForm (source lines 378-423): when
the form group was built, the formatted initial data is emitted, plus an
initial validation when the validateOnRender option is set; otherwise
nothing is emitted. -/
def emitEvents (built : Bool) (validator : Option Json) (opts fd : Json) : List Event :=
  if built then
    [Event.onChanges fd] ++
    (if truthy (jsAccess opts "validateOnRender") then
      [Event.validated (validator.getD Json.null) fd] else [])
  else []

/-- The initializeForm function of the component (source lines 131-442),
translated step for step: when one of the six schema, layout, data,
form, JSONSchema, UISchema inputs is present, reset the engine
structures of lines 136-144 (the circular-reference maps, the arrayMap
and the compiled validator are not among them), select the schema,
normalize it, compile the validator from it, resolve its references,
select the layout, merge an alternate layout document into the schema,
select the initial values, synthesize a schema when it is still empty,
build the template, layout, data map and form group from a non-empty
schema, and emit the initial data (plus an initial validation when the
validateOnRender option is set).  Otherwise do nothing.  Returns the new
component state and the emitted events. -/
def initializeForm (inp : Inputs) (st : CState) : CState × List Event :=
  if inputsPresent inp then
    let opts := optionsPhase inp st.jsf.globalOptions
    let picked := pickSchema inp
    let s0 := picked.1
    let schemaNonEmpty := !(isEmpty s0)
    let norm := normalizeSchemaShorthand s0
    let s2 := if schemaNonEmpty then convertJsonSchema3to4 norm.1 else s0
    let jfcS := if schemaNonEmpty then norm.2 else false
    let validator1 := if schemaNonEmpty then some s2 else st.validateFormData
    let ev1 : List Event := if schemaNonEmpty then [Event.compiled s2] else []
    let res := if schemaNonEmpty then resolveRefs s2
      else { schema := s2, refLib := [], circPairs := [] : ResolveState }
    let pickedL := pickLayout inp
    let l0 := pickedL.1
    let pickedA := pickAlternateLayout inp
    let s4 := if truthy pickedA.1 then mergeAlternateLayout res.schema pickedA.1
      else res.schema
    let pickedD := pickData inp
    let iv := pickedD.1
    let s5 := synthesizeSchema s4 l0 iv
    let built := !(isEmpty s5)
    let validator2 :=
      if built then (match validator1 with | none => some s5 | some v => some v)
      else validator1
    let ev2 : List Event :=
      if built && validator1.isNone then [Event.compiled s5] else []
    let tmpl := buildFormGroupTemplate s5 iv
    let jsfOut : JsfState := {
      schema := s5
      layout := if built then buildLayout s5 l0 else l0
      initialValues := iv
      dataMap := if built then buildDataMap s5 else []
      schemaRefLibrary := res.refLib
      layoutRefLibrary := []
      formGroupTemplate := if built then tmpl else Json.obj []
      formGroup := if built then some (buildFormGroup tmpl) else none
      schemaCircularRefMap :=
        res.circPairs.foldl (fun m pr => mapSet m pr.1 pr.2) st.jsf.schemaCircularRefMap
      dataCircularRefMap := st.jsf.dataCircularRefMap
      arrayMap := st.jsf.arrayMap
      globalOptions := opts
      angularCompatFlag :=
        st.jsf.angularCompatFlag || picked.2.1 || pickedL.2.1 || pickedD.2.1
      reactCompatFlag :=
        st.jsf.reactCompatFlag || picked.2.2 || pickedA.2.1 || pickedD.2.2.1
      jsonFormCompatFlag :=
        st.jsf.jsonFormCompatFlag || jfcS || pickedL.2.2 || pickedA.2.2 || pickedD.2.2.2 }
    let st1 : CState := {
      jsf := jsfOut
      validateFormData := validator2
      formInitialized := built }
    let fd := formatFormData (jsAccess (buildFormGroup tmpl) "value") jsfOut.dataMap
      jsfOut.dataCircularRefMap jsfOut.arrayMap false
    (st1, ev1 ++ ev2 ++ emitEvents built validator2 opts fd)
  else (st, [])

/-- The value-change subscription of initializeForm (source lines
395-407): on every live value change, emit the formatted data, then
validate it with the compiled validator and emit the result. -/
def onValueChange (st : CState) (value : Json) : List Event :=
  let fd := formatFormData value st.jsf.dataMap st.jsf.dataCircularRefMap
    st.jsf.arrayMap false
  [Event.onChanges fd, Event.validated (st.validateFormData.getD Json.null) fd]

/-- The submitForm function of the component (source lines 465-470):
emit the formatted form-group value with the final-submission flag
set. -/
def submitForm (st : CState) : List Event :=
  [Event.onSubmit (formatFormData
    (match st.jsf.formGroup with | some g => jsAccess g "value" | none => Json.null)
    st.jsf.dataMap st.jsf.dataCircularRefMap st.jsf.arrayMap true)]

/-- The keys of an object value. -/
def objKeys : Json → List String
  | Json.obj kvs => kvs.map Prod.fst
  | _ => []

theorem lookup_upsert_self (l : List (String × Json)) (k : String) (v : Json) :
    lookupKey (upsert l k v) k = some v := by
  induction l with
  | nil => simp [upsert, lookupKey]
  | cons kv rest ih =>
      obtain ⟨k0, v0⟩ := kv
      by_cases h : k0 = k
      · simp [upsert, h, lookupKey]
      · simp [upsert, h, lookupKey, ih]

theorem lookup_upsert_ne (l : List (String × Json)) (k0 k : String) (v : Json)
    (h : k0 ≠ k) : lookupKey (upsert l k0 v) k = lookupKey l k := by
  induction l with
  | nil => simp [upsert, lookupKey, h]
  | cons kv rest ih =>
      obtain ⟨k1, v1⟩ := kv
      by_cases h1 : k1 = k0
      · subst h1
        simp [upsert, lookupKey, h]
      · by_cases h2 : k1 = k
        · subst h2
          simp [upsert, lookupKey, h1]
        · simp [upsert, lookupKey, h1, h2, ih]

theorem lookup_none_of_not_mem (l : List (String × Json)) (k : String)
    (h : k ∉ l.map Prod.fst) : lookupKey l k = none := by
  induction l with
  | nil => rfl
  | cons kv rest ih =>
      obtain ⟨k0, v0⟩ := kv
      simp only [List.map_cons, List.mem_cons] at h
      push_neg at h
      have h1 : ¬(k0 = k) := fun hc => h.1 hc.symm
      simp [lookupKey, h1, ih h.2]

theorem lookup_assign_of_none (s t : List (String × Json)) (k : String)
    (h : lookupKey s k = none) :
    lookupKey (s.foldl (fun acc kv => upsert acc kv.1 kv.2) t) k = lookupKey t k := by
  induction s generalizing t with
  | nil => rfl
  | cons kv rest ih =>
      obtain ⟨k0, v0⟩ := kv
      have h1 : ¬(k0 = k) := by
        intro hc
        simp [lookupKey, hc] at h
      have h2 : lookupKey rest k = none := by
        simpa [lookupKey, h1] using h
      simp only [List.foldl_cons]
      rw [ih _ h2]
      exact lookup_upsert_ne _ _ _ _ h1

theorem lookup_assign_of_some (s t : List (String × Json)) (k : String) (v : Json)
    (hnd : (s.map Prod.fst).Nodup) (h : lookupKey s k = some v) :
    lookupKey (s.foldl (fun acc kv => upsert acc kv.1 kv.2) t) k = some v := by
  induction s generalizing t with
  | nil => simp [lookupKey] at h
  | cons kv rest ih =>
      obtain ⟨k0, v0⟩ := kv
      simp only [List.map_cons, List.nodup_cons] at hnd
      by_cases h1 : k0 = k
      · subst h1
        have hv : v0 = v := by
          simpa [lookupKey] using h
        have hrest : lookupKey rest k0 = none :=
          lookup_none_of_not_mem _ _ hnd.1
        simp only [List.foldl_cons]
        rw [lookup_assign_of_none _ _ _ hrest]
        show lookupKey (upsert t k0 v0) k0 = some v
        rw [lookup_upsert_self, hv]
      · have h2 : lookupKey rest k = some v := by
          simpa [lookupKey, h1] using h
        simp only [List.foldl_cons]
        exact ih _ hnd.2 h2

theorem removePair_sublist (l : List (String × Json)) (k : String) :
    (removePair l k).Sublist l := by
  induction l with
  | nil => simp [removePair]
  | cons kv rest ih =>
      obtain ⟨k0, v0⟩ := kv
      by_cases h : k0 = k
      · simp only [removePair, if_pos h]
        exact List.sublist_cons_self (k0, v0) rest
      · simp only [removePair, if_neg h]
        exact ih.cons₂ (k0, v0)

theorem lookup_removePair_ne (l : List (String × Json)) (k0 k : String)
    (h : k ≠ k0) : lookupKey (removePair l k0) k = lookupKey l k := by
  induction l with
  | nil => rfl
  | cons kv rest ih =>
      obtain ⟨k1, v1⟩ := kv
      by_cases h1 : k1 = k0
      · subst h1
        have h2 : ¬(k1 = k) := fun hc => h (hc.symm)
        simp [removePair, lookupKey, h2]
      · by_cases h2 : k1 = k
        · subst h2
          simp [removePair, lookupKey, h1]
        · simp [removePair, lookupKey, h1, h2, ih]

theorem lookup_removePair_self (l : List (String × Json)) (k : String)
    (hnd : (l.map Prod.fst).Nodup) : lookupKey (removePair l k) k = none := by
  induction l with
  | nil => rfl
  | cons kv rest ih =>
      obtain ⟨k0, v0⟩ := kv
      simp only [List.map_cons, List.nodup_cons] at hnd
      by_cases h : k0 = k
      · simp only [removePair, if_pos h]
        exact lookup_none_of_not_mem _ _ (h ▸ hnd.1)
      · simp [removePair, h, lookupKey, ih hnd.2]

theorem jGet_nil (v : Json) : JsonPointer.jGet v [] = some v := by
  cases v <;> rfl

theorem jSet_nil (s v : Json) : JsonPointer.jSet s [] v = v := by
  cases s <;> rfl

theorem jGet_jSet (p : List String) (s v : Json) :
    JsonPointer.jGet (JsonPointer.jSet s p v) p = some v := by
  induction p generalizing s with
  | nil => rw [jSet_nil, jGet_nil]
  | cons k rest ih =>
      cases s with
      | obj kvs =>
          cases hl : lookupKey kvs k with
          | some child =>
              simp only [JsonPointer.jSet, hl]
              simp only [JsonPointer.jGet, lookup_upsert_self]
              exact ih child
          | none =>
              simp only [JsonPointer.jSet, hl]
              have hx : lookupKey (kvs ++ [(k, JsonPointer.jSet (Json.obj []) rest v)]) k =
                  some (JsonPointer.jSet (Json.obj []) rest v) := by
                induction kvs with
                | nil => simp [lookupKey]
                | cons kv tl ihl =>
                    obtain ⟨k0, v0⟩ := kv
                    have h1 : ¬(k0 = k) := by
                      intro hc
                      simp [lookupKey, hc] at hl
                    have h2 : lookupKey tl k = none := by
                      simpa [lookupKey, h1] using hl
                    simpa [lookupKey, h1] using ihl h2
              simp only [JsonPointer.jGet, hx]
              exact ih _
      | arr xs =>
          cases hn : k.toNat? with
          | some i =>
              by_cases hi : i < xs.length
              · simp only [JsonPointer.jSet, hn, dif_pos hi]
                have hx : (xs.set i (JsonPointer.jSet xs[i] rest v))[i]? =
                    some (JsonPointer.jSet xs[i] rest v) := by
                  rw [List.getElem?_set_self (by simpa using hi)]
                simp only [JsonPointer.jGet, hn, hx]
                exact ih _
              · simp only [JsonPointer.jSet, hn, dif_neg hi]
                simp only [JsonPointer.jGet, lookupKey, if_pos rfl]
                exact ih _
          | none =>
              simp only [JsonPointer.jSet, hn]
              simp only [JsonPointer.jGet, lookupKey, if_pos rfl]
              exact ih _
      | null =>
          simp only [JsonPointer.jSet, JsonPointer.jGet, lookupKey, if_pos rfl]
          exact ih _
      | bool b =>
          simp only [JsonPointer.jSet, JsonPointer.jGet, lookupKey, if_pos rfl]
          exact ih _
      | num n =>
          simp only [JsonPointer.jSet, JsonPointer.jGet, lookupKey, if_pos rfl]
          exact ih _
      | str t =>
          simp only [JsonPointer.jSet, JsonPointer.jGet, lookupKey, if_pos rfl]
          exact ih _

theorem refLibStep_schema (n : String) (st : ResolveState) :
    (refLibStep n st).schema = st.schema := by
  unfold refLibStep
  split <;> rfl

theorem refLibStep_circPairs (n : String) (st : ResolveState) :
    (refLibStep n st).circPairs = st.circPairs := by
  unfold refLibStep
  split <;> rfl

theorem ancestorOrSelf_take (a b : List String) :
    JsonPointer.ancestorOrSelf a b = true ↔ b.take a.length = a := by
  induction a generalizing b with
  | nil => simp [JsonPointer.ancestorOrSelf]
  | cons x xs ih =>
      cases b with
      | nil => simp [JsonPointer.ancestorOrSelf]
      | cons y ys =>
          simp only [JsonPointer.ancestorOrSelf, List.length_cons, List.take_succ_cons,
            Bool.and_eq_true, decide_eq_true_eq, List.cons.injEq, ih]
          constructor
          · rintro ⟨h1, h2⟩
            exact ⟨h1.symm, h2⟩
          · rintro ⟨h1, h2⟩
            exact ⟨h1.symm, h2⟩

/-- C1: during reference resolution, a node bearing a string $ref is
classified circular exactly when the segments of the normalized target
pointer are an initial segment of (ancestor of or equal to) the segments
of the pointer at which the reference appears; when circular, the step
leaves the schema tree untouched, so the $ref marker stays on the node,
and the pair of current pointer and target pointer is recorded among the
circular-reference pairs that initializeForm folds into the
circular-reference map. -/
theorem c1_circular_ref_classification (value : Json) (pointer r : String)
    (st : ResolveState) (hr : getKey value "$ref" = some (Json.str r)) :
    (JsonPointer.isSubPointer (JsonPointer.compile r) pointer = true ↔
      (JsonPointer.parse pointer).take
          (JsonPointer.parse (JsonPointer.compile r)).length =
        JsonPointer.parse (JsonPointer.compile r)) ∧
    (JsonPointer.isSubPointer (JsonPointer.compile r) pointer = true →
      (refStep value pointer st).schema = st.schema ∧
      (refStep value pointer st).circPairs =
        st.circPairs ++ [(pointer, JsonPointer.compile r)]) := by
  constructor
  · exact ancestorOrSelf_take _ _
  · intro hc
    simp [refStep, hr, hc, refLibStep_schema, refLibStep_circPairs]

/-- Witness for C1 at the self-referential scenario: a node at the
pointer /properties/node referencing the root is classified circular and
its pointer pair is recorded. -/
theorem c1_witness :
    (refStep (Json.obj [("$ref", Json.str "#")]) "/properties/node"
        ⟨Json.obj [], [], []⟩).circPairs =
      [("/properties/node", JsonPointer.compile "#")] := by
  have h := c1_circular_ref_classification (Json.obj [("$ref", Json.str "#")])
    "/properties/node" "#" ⟨Json.obj [], [], []⟩ rfl
  have h2 := (h.2 (by rfl)).2
  simpa using h2

/-- C2: during reference resolution, a node bearing a non-circular
string $ref is replaced, at its pointer in the schema tree, by a deep
copy of the reference-library entry for the normalized target merged
with the node's remaining sibling keys: the node's own $ref key is
deleted (the merged node carries a $ref only if the copied template
itself does) and every sibling key keeps its local value, overriding the
copied template. -/
theorem c2_noncircular_ref_inlining (value : Json) (pointer r : String)
    (st : ResolveState) (hr : getKey value "$ref" = some (Json.str r))
    (hnc : JsonPointer.isSubPointer (JsonPointer.compile r) pointer = false)
    (hnd : (objKeys value).Nodup) :
    JsonPointer.jGet (refStep value pointer st).schema (JsonPointer.parse pointer) =
      some (mergeObj
        (cloneDeep ((lookupKey (refStep value pointer st).refLib
          (JsonPointer.compile r)).getD Json.null))
        (removeKey value "$ref")) ∧
    getKey (mergeObj
        (cloneDeep ((lookupKey (refStep value pointer st).refLib
          (JsonPointer.compile r)).getD Json.null))
        (removeKey value "$ref")) "$ref" =
      getKey ((lookupKey (refStep value pointer st).refLib
          (JsonPointer.compile r)).getD Json.null) "$ref" ∧
    (∀ k, k ≠ "$ref" → (getKey value k).isSome →
      getKey (mergeObj
        (cloneDeep ((lookupKey (refStep value pointer st).refLib
          (JsonPointer.compile r)).getD Json.null))
        (removeKey value "$ref")) k = getKey value k) := by
  obtain ⟨kvs, rfl⟩ : ∃ kvs, value = Json.obj kvs := by
    cases value <;> simp [getKey] at hr <;> exact ⟨_, rfl⟩
  have hndk : (kvs.map Prod.fst).Nodup := hnd
  have hrmnd : ((removePair kvs "$ref").map Prod.fst).Nodup :=
    ((removePair_sublist kvs "$ref").map Prod.fst).nodup hndk
  refine ⟨?_, ?_, ?_⟩
  · simp only [refStep, hr, hnc, Bool.not_false, if_pos]
    exact jGet_jSet _ _ _
  · cases hE : (lookupKey (refStep (Json.obj kvs) pointer st).refLib
        (JsonPointer.compile r)).getD Json.null with
    | obj tk =>
        have hrm : lookupKey (removePair kvs "$ref") "$ref" = none :=
          lookup_removePair_self _ _ hndk
        simp only [mergeObj, cloneDeep, removeKey, getKey]
        exact lookup_assign_of_none _ _ _ hrm
    | null =>
        have hrm : lookupKey (removePair kvs "$ref") "$ref" = none :=
          lookup_removePair_self _ _ hndk
        simpa [mergeObj, cloneDeep, removeKey, getKey] using hrm
    | bool b =>
        have hrm : lookupKey (removePair kvs "$ref") "$ref" = none :=
          lookup_removePair_self _ _ hndk
        simpa [mergeObj, cloneDeep, removeKey, getKey] using hrm
    | num n =>
        have hrm : lookupKey (removePair kvs "$ref") "$ref" = none :=
          lookup_removePair_self _ _ hndk
        simpa [mergeObj, cloneDeep, removeKey, getKey] using hrm
    | str t =>
        have hrm : lookupKey (removePair kvs "$ref") "$ref" = none :=
          lookup_removePair_self _ _ hndk
        simpa [mergeObj, cloneDeep, removeKey, getKey] using hrm
    | arr xs =>
        have hrm : lookupKey (removePair kvs "$ref") "$ref" = none :=
          lookup_removePair_self _ _ hndk
        simpa [mergeObj, cloneDeep, removeKey, getKey] using hrm
  · intro k hk hsome
    obtain ⟨v, hv⟩ := Option.isSome_iff_exists.mp hsome
    have hvk : lookupKey kvs k = some v := hv
    have hrm : lookupKey (removePair kvs "$ref") k = some v := by
      rw [lookup_removePair_ne _ _ _ hk]
      exact hvk
    cases hE : (lookupKey (refStep (Json.obj kvs) pointer st).refLib
        (JsonPointer.compile r)).getD Json.null with
    | obj tk =>
        simp only [mergeObj, cloneDeep, removeKey, getKey]
        rw [lookup_assign_of_some _ _ _ _ hrmnd hrm]
        exact hvk.symm
    | null => simpa [mergeObj, cloneDeep, removeKey, getKey, hrm] using hvk.symm
    | bool b => simpa [mergeObj, cloneDeep, removeKey, getKey, hrm] using hvk.symm
    | num n => simpa [mergeObj, cloneDeep, removeKey, getKey, hrm] using hvk.symm
    | str t => simpa [mergeObj, cloneDeep, removeKey, getKey, hrm] using hvk.symm
    | arr xs => simpa [mergeObj, cloneDeep, removeKey, getKey, hrm] using hvk.symm

theorem formatStep_maps (values : Json) (e : String × Json) (maps : FormMaps) (acc : Json) :
    (formatStep values e maps acc).2 = maps := by
  cases h : JsonPointer.jGet values (JsonPointer.parse e.1) with
  | none => simp [formatStep, h]
  | some v => cases v <;> simp [formatStep, h]

theorem formatSteps_maps (values : Json) (entries : List (String × Json))
    (maps : FormMaps) (acc : Json) :
    (formatSteps values entries maps acc).2 = maps := by
  induction entries generalizing maps acc with
  | nil => rfl
  | cons e rest ih =>
      simp only [formatSteps]
      rw [formatStep_maps]
      exact ih _ _

/-- C3: formatFormData is pure in its inputs: threading the dataMap, the
circular-reference map and the arrayMap through the reconstruction
returns them structurally unchanged, and a second call on the state
coming out of the first call produces a deep-equal output. -/
theorem c3_formatFormData_pure (values : Json) (dm : List (String × Json))
    (cm : List (String × String)) (am : List (String × Nat)) (finalSubmit : Bool) :
    (formatFormDataFull values ⟨dm, cm, am⟩ finalSubmit).2 = ⟨dm, cm, am⟩ ∧
    (formatFormDataFull values (formatFormDataFull values ⟨dm, cm, am⟩ finalSubmit).2
        finalSubmit).1 =
      (formatFormDataFull values ⟨dm, cm, am⟩ finalSubmit).1 ∧
    formatFormData values dm cm am finalSubmit =
      (formatFormDataFull values ⟨dm, cm, am⟩ finalSubmit).1 := by
  have h1 : (formatFormDataFull values ⟨dm, cm, am⟩ finalSubmit).2 = ⟨dm, cm, am⟩ := by
    unfold formatFormDataFull
    simp [formatSteps_maps]
  exact ⟨h1, by rw [h1], rfl⟩

/-- Witness for C2 at a concrete schema: the node at /properties/a
referencing /definitions/x with a sibling title ends up as the referent
merged with the sibling. -/
theorem c2_witness :
    JsonPointer.jGet
      (refStep (Json.obj [("$ref", Json.str "#/definitions/x"), ("title", Json.str "T")])
        "/properties/a"
        ⟨Json.obj [("definitions",
            Json.obj [("x", Json.obj [("type", Json.str "number")])])], [], []⟩).schema
      (JsonPointer.parse "/properties/a") =
    some (Json.obj [("type", Json.str "number"), ("title", Json.str "T")]) := by
  have h := (c2_noncircular_ref_inlining
    (Json.obj [("$ref", Json.str "#/definitions/x"), ("title", Json.str "T")])
    "/properties/a" "#/definitions/x"
    ⟨Json.obj [("definitions",
        Json.obj [("x", Json.obj [("type", Json.str "number")])])], [], []⟩
    rfl rfl (by decide)).1
  exact h

/-- Counterexample for C4: an initialization that records a circular
reference, followed by a second initialization whose schema contains no
reference at all, leaves the old entry in the schema circular-reference
map: that map is not rebuilt from scratch. -/
theorem c4_counterexample :
    (resolveRefs (Json.obj [("type", Json.str "object"),
        ("properties", Json.obj [("name",
          Json.obj [("type", Json.str "string")])])])).circPairs = [] ∧
    ((initializeForm
        { schema := Json.obj [("type", Json.str "object"),
            ("properties", Json.obj [("name",
              Json.obj [("type", Json.str "string")])])] }
        ((initializeForm
          { schema := Json.obj [("type", Json.str "object"),
              ("properties", Json.obj [("node",
                Json.obj [("$ref", Json.str "#")])])] }
          {}).1)).1).jsf.schemaCircularRefMap =
      [("/properties/node", "")] := by
  exact ⟨rfl, rfl⟩

/-- C4 as amended: on an initialization with inputs present, the schema,
layout, initial values, dataMap, schema reference library, layout
reference library, form-group template and form group are rebuilt from
scratch, depending only on the new inputs and not on any prior engine
state; the circular-reference maps, the arrayMap and the compiled
validator are the engine structures excluded from this rebuild. -/
theorem c4_rebuilt_from_scratch (inp : Inputs) (st st2 : CState)
    (hp : inputsPresent inp = true) :
    (initializeForm inp st).1.jsf.schema = (initializeForm inp st2).1.jsf.schema ∧
    (initializeForm inp st).1.jsf.layout = (initializeForm inp st2).1.jsf.layout ∧
    (initializeForm inp st).1.jsf.initialValues =
      (initializeForm inp st2).1.jsf.initialValues ∧
    (initializeForm inp st).1.jsf.dataMap = (initializeForm inp st2).1.jsf.dataMap ∧
    (initializeForm inp st).1.jsf.schemaRefLibrary =
      (initializeForm inp st2).1.jsf.schemaRefLibrary ∧
    (initializeForm inp st).1.jsf.layoutRefLibrary =
      (initializeForm inp st2).1.jsf.layoutRefLibrary ∧
    (initializeForm inp st).1.jsf.formGroupTemplate =
      (initializeForm inp st2).1.jsf.formGroupTemplate ∧
    (initializeForm inp st).1.jsf.formGroup =
      (initializeForm inp st2).1.jsf.formGroup := by
  unfold initializeForm
  simp only [if_pos hp]
  all_goals simp

/-- Witness for C4: the rebuilt structures agree across two different
prior states for a concrete schema input. -/
theorem c4_witness :
    (initializeForm { schema := Json.obj [("type", Json.str "object"),
        ("properties", Json.obj [])] }
      {}).1.jsf.schema =
    (initializeForm { schema := Json.obj [("type", Json.str "object"),
        ("properties", Json.obj [])] }
      { formInitialized := true, validateFormData := some Json.null }).1.jsf.schema :=
  (c4_rebuilt_from_scratch
    { schema := Json.obj [("type", Json.str "object"), ("properties", Json.obj [])] }
    {} { formInitialized := true, validateFormData := some Json.null } rfl).1

/-- Counterexample for C5: with a schema containing a non-circular
reference, the validator is compiled from the schema as it stood before
reference resolution: the compiled schema still carries the $ref at
/properties/a that the resolved schema has inlined, so the validator is
not compiled from the schema with all non-circular references inlined;
moreover submitForm on the resulting state emits only the formatted
data, never invoking the validator, so the validator is not used at
submission either. -/
theorem c5_counterexample :
    (initializeForm
        { schema := Json.obj [("type", Json.str "object"),
            ("properties", Json.obj [
              ("a", Json.obj [("$ref", Json.str "#/properties/b")]),
              ("b", Json.obj [("type", Json.str "number")])])] }
        {}).1.validateFormData =
      some (Json.obj [("type", Json.str "object"),
        ("properties", Json.obj [
          ("a", Json.obj [("$ref", Json.str "#/properties/b")]),
          ("b", Json.obj [("type", Json.str "number")])])]) ∧
    JsonPointer.jGet
      (initializeForm
        { schema := Json.obj [("type", Json.str "object"),
            ("properties", Json.obj [
              ("a", Json.obj [("$ref", Json.str "#/properties/b")]),
              ("b", Json.obj [("type", Json.str "number")])])] }
        {}).1.jsf.schema ["properties", "a", "$ref"] = none ∧
    JsonPointer.jGet
      (initializeForm
        { schema := Json.obj [("type", Json.str "object"),
            ("properties", Json.obj [
              ("a", Json.obj [("$ref", Json.str "#/properties/b")]),
              ("b", Json.obj [("type", Json.str "number")])])] }
        {}).1.jsf.schema ["properties", "a", "type"] = some (Json.str "number") ∧
    submitForm
      (initializeForm
        { schema := Json.obj [("type", Json.str "object"),
            ("properties", Json.obj [
              ("a", Json.obj [("$ref", Json.str "#/properties/b")]),
              ("b", Json.obj [("type", Json.str "number")])])] }
        {}).1 = [Event.onSubmit (Json.obj [])] := by
  exact ⟨rfl, rfl, rfl, rfl⟩

theorem emitEvents_filter_compiled (b : Bool) (v : Option Json) (opts fd : Json) :
    (emitEvents b v opts fd).filter isCompiledEvent = [] := by
  cases b
  · rfl
  · unfold emitEvents
    split
    · split <;> rfl
    · rfl

theorem emitEvents_not_built (v : Option Json) (opts fd : Json) :
    emitEvents false v opts fd = [] := rfl

/-- C5 as amended: during an initialization whose selected schema is
non-empty, whichever of the precedence sources supplied it, the
validator is compiled exactly once, from the normalized schema before
reference resolution, so non-circular $refs are not yet inlined in the
compiled schema; that same compiled schema is the one the value-change
subscription validates against, while submission emits only the
formatted data without invoking the validator. -/
theorem c5_validator_compiled_once (inp : Inputs) (st : CState)
    (hp : inputsPresent inp = true)
    (hne : isEmpty (pickSchema inp).1 = false) :
    (initializeForm inp st).1.validateFormData =
      some (convertJsonSchema3to4 (normalizeSchemaShorthand (pickSchema inp).1).1) ∧
    ((initializeForm inp st).2.filter isCompiledEvent) =
      [Event.compiled (convertJsonSchema3to4
        (normalizeSchemaShorthand (pickSchema inp).1).1)] ∧
    (∀ v, ∃ fd, onValueChange (initializeForm inp st).1 v =
      [Event.onChanges fd,
       Event.validated (convertJsonSchema3to4
         (normalizeSchemaShorthand (pickSchema inp).1).1) fd]) ∧
    (∀ s2 : CState, (submitForm s2).filter isValidatedEvent = [] ∧
      (submitForm s2).filter isCompiledEvent = []) := by
  have h1 : (initializeForm inp st).1.validateFormData =
      some (convertJsonSchema3to4 (normalizeSchemaShorthand (pickSchema inp).1).1) := by
    unfold initializeForm
    simp only [if_pos hp, hne, Bool.not_false, eq_self_iff_true, if_true]
    rw [ite_self]
  refine ⟨h1, ?_, ?_, ?_⟩
  · unfold initializeForm
    simp only [if_pos hp, hne, Bool.not_false, eq_self_iff_true, if_true]
    simp [List.filter_append, isCompiledEvent, emitEvents_filter_compiled]
  · intro v
    exact ⟨formatFormData v (initializeForm inp st).1.jsf.dataMap
      (initializeForm inp st).1.jsf.dataCircularRefMap
      (initializeForm inp st).1.jsf.arrayMap false,
      by simp only [onValueChange, h1, Option.getD_some]⟩
  · intro s2
    exact ⟨rfl, rfl⟩

/-- Witness for C5 as amended, exercising the form.schema source: a
schema supplied inside the combined form object yields a validator
recorded as compiled from that schema. -/
theorem c5_witness :
    (initializeForm
      { form := Json.obj [("schema", Json.obj [("type", Json.str "object"),
          ("properties", Json.obj [("name",
            Json.obj [("type", Json.str "string")])])])] }
      {}).1.validateFormData =
    some (convertJsonSchema3to4 (normalizeSchemaShorthand
      (pickSchema { form := Json.obj [("schema", Json.obj [("type", Json.str "object"),
          ("properties", Json.obj [("name",
            Json.obj [("type", Json.str "string")])])])] }).1).1) :=
  (c5_validator_compiled_once
    { form := Json.obj [("schema", Json.obj [("type", Json.str "object"),
        ("properties", Json.obj [("name",
          Json.obj [("type", Json.str "string")])])])] }
    {} rfl rfl).1

/-- C6: a non-empty canonical schema lacking a type key but carrying an
object-valued properties key gets its type set to object in place;
otherwise, a schema lacking a proper object type-plus-properties pairing
(no type, or type not the string object, or no properties) is wrapped
whole as a properties bag under an object type, and the JSON Form
compatibility flag is reported set. -/
theorem c6_schema_shorthand (s : Json) (hne : isEmpty s = false) :
    (hasOwn s "type" = false → hasOwn s "properties" = true →
      isObject (jsAccess s "properties") = true →
      normalizeSchemaShorthand s = (setKey s "type" (Json.str "object"), false)) ∧
    (¬(hasOwn s "type" = false ∧ hasOwn s "properties" = true ∧
        isObject (jsAccess s "properties") = true) →
      (hasOwn s "type" = false ∨ isStrVal (jsAccess s "type") "object" = false ∨
        hasOwn s "properties" = false) →
      normalizeSchemaShorthand s =
        (Json.obj [("type", Json.str "object"), ("properties", s)], true)) := by
  constructor
  · intro h1 h2 h3
    simp [normalizeSchemaShorthand, h1, h2, h3]
  · intro hn hd
    have hcond : (!(hasOwn s "type") && hasOwn s "properties" &&
        isObject (jsAccess s "properties")) = false := by
      by_contra hc
      rw [Bool.not_eq_false] at hc
      simp only [Bool.and_eq_true, Bool.not_eq_true'] at hc
      exact hn ⟨hc.1.1, hc.1.2, hc.2⟩
    have hcond2 : (!(hasOwn s "type") || !(isStrVal (jsAccess s "type") "object") ||
        !(hasOwn s "properties")) = true := by
      rcases hd with h | h | h <;> simp [h]
    simp [normalizeSchemaShorthand, hcond, hcond2]

/-- Witness for C6: a bare properties bag with an object-valued
properties key gets type object set in place. -/
theorem c6_witness :
    normalizeSchemaShorthand (Json.obj [("properties", Json.obj [])]) =
      (setKey (Json.obj [("properties", Json.obj [])]) "type" (Json.str "object"), false) :=
  (c6_schema_shorthand (Json.obj [("properties", Json.obj [])]) rfl).1 rfl rfl rfl

/-- C7: when the schema is empty after normalization, it is synthesized
from the layout when the layout holds no wildcard entry, else from the
initial values when they are non-empty, else it stays empty; and an
initialization that ends with an empty schema builds no form group,
leaves the form uninitialized and emits no data event (a defined empty
state rather than an error, the whole pipeline being total). -/
theorem c7_empty_schema_synthesis :
    (∀ schema layout iv, isEmpty schema = true →
      (hasStar layout = false →
        synthesizeSchema schema layout iv = buildSchemaFromLayout layout) ∧
      (hasStar layout = true → isEmpty iv = false →
        synthesizeSchema schema layout iv = buildSchemaFromData iv) ∧
      (hasStar layout = true → isEmpty iv = true →
        synthesizeSchema schema layout iv = schema)) ∧
    (∀ inp st, inputsPresent inp = true →
      isEmpty (initializeForm inp st).1.jsf.schema = true →
      (initializeForm inp st).1.jsf.formGroup = none ∧
      (initializeForm inp st).1.formInitialized = false ∧
      ∀ e ∈ (initializeForm inp st).2, isOnChangesEvent e = false) := by
  constructor
  · intro schema layout iv hemp
    refine ⟨?_, ?_, ?_⟩
    · intro hs
      simp [synthesizeSchema, hemp, hs]
    · intro hs hiv
      simp [synthesizeSchema, hemp, hs, hiv]
    · intro hs hiv
      simp [synthesizeSchema, hemp, hs, hiv]
  · intro inp st hp hemp
    simp only [initializeForm, if_pos hp] at hemp ⊢
    refine ⟨?_, ?_, ?_⟩
    · rw [hemp]
      simp
    · rw [hemp]
      simp
    · intro e he
      rw [hemp] at he
      simp only [Bool.not_true, Bool.false_and, Bool.false_eq_true, if_false,
        emitEvents_not_built, List.append_nil] at he
      by_cases hc : (!isEmpty (pickSchema inp).1) = true
      · simp only [hc, if_true, if_pos] at he
        simp only [List.mem_singleton] at he
        subst he
        rfl
      · simp only [Bool.not_eq_true] at hc
        simp [hc] at he

/-- Witness for C7 at concrete values: with an empty schema, a starless
layout drives synthesis from the layout, and an initialization of a
form input carrying only an empty-schema combined object produces no
form group. -/
theorem c7_witness :
    synthesizeSchema (Json.obj []) (Json.arr [Json.obj [("key", Json.str "title")]])
        (Json.obj []) =
      buildSchemaFromLayout (Json.arr [Json.obj [("key", Json.str "title")]]) :=
  ((c7_empty_schema_synthesis.1 (Json.obj [])
    (Json.arr [Json.obj [("key", Json.str "title")]]) (Json.obj []) rfl).1) rfl

/-- C8: the canonical layout is chosen by first-available precedence
among the direct array layout input, the combined form object itself
when it is an array, the form object's form member, the form object's
layout member, and the default wildcard-plus-submit layout; each branch
is taken exactly under the failure of all higher-precedence tests, so
lower-precedence candidates never affect the result when a higher one is
present. -/
theorem c8_layout_precedence (inp : Inputs) :
    (isArray inp.layout = true → pickLayout inp = (inp.layout, false, false)) ∧
    (isArray inp.layout = false → isArray inp.form = true →
      pickLayout inp = (inp.form, true, false)) ∧
    (isArray inp.layout = false → isArray inp.form = false →
      truthy inp.form = true → isArray (jsAccess inp.form "form") = true →
      pickLayout inp = (fixJsonFormOptions (jsAccess inp.form "form"), false, true)) ∧
    (isArray inp.layout = false → isArray inp.form = false →
      truthy inp.form = true → isArray (jsAccess inp.form "form") = false →
      isArray (jsAccess inp.form "layout") = true →
      pickLayout inp = (jsAccess inp.form "layout", false, false)) ∧
    (isArray inp.layout = false → isArray inp.form = false →
      (truthy inp.form = false ∨
        (isArray (jsAccess inp.form "form") = false ∧
         isArray (jsAccess inp.form "layout") = false)) →
      pickLayout inp = (defaultLayout, false, false)) := by
  refine ⟨?_, ?_, ?_, ?_, ?_⟩
  · intro h1
    unfold pickLayout
    rw [if_pos h1]
  · intro h1 h2
    unfold pickLayout
    rw [if_neg (by simp [h1]), if_pos h2]
  · intro h1 h2 h3 h4
    unfold pickLayout
    rw [if_neg (by simp [h1]), if_neg (by simp [h2]),
      if_pos (by simp [h3, h4])]
  · intro h1 h2 h3 h4 h5
    unfold pickLayout
    rw [if_neg (by simp [h1]), if_neg (by simp [h2]),
      if_neg (by simp [h4]), if_pos (by simp [h3, h5])]
  · intro h1 h2 h3
    unfold pickLayout
    rcases h3 with h3 | ⟨h3a, h3b⟩
    · rw [if_neg (by simp [h1]), if_neg (by simp [h2]),
        if_neg (by simp [h3]), if_neg (by simp [h3])]
    · rw [if_neg (by simp [h1]), if_neg (by simp [h2]),
        if_neg (by simp [h3a]), if_neg (by simp [h3b])]

/-- Witness for C8: a direct array layout wins over a supplied form
object. -/
theorem c8_witness :
    pickLayout { layout := Json.arr [Json.str "*"], form := Json.obj [("form", Json.arr [])] } =
      (Json.arr [Json.str "*"], false, false) :=
  (c8_layout_precedence
    { layout := Json.arr [Json.str "*"], form := Json.obj [("form", Json.arr [])] }).1 rfl

/-- C9: the alternate-layout merge of one hint value into the schema
translates the hint pointer into a schema pointer, aims ui:order at the
translated pointer itself and every other hint at the x-schema-form bag
of the enclosing group with any ui: prefix stripped, and copies the hint
value exactly when the enclosing group exists in the schema and nothing
exists yet at the target location; a hint aimed at an existing value, at
a missing group, or carrying no present value or pointer, leaves the
schema unchanged (first-writer-wins, existing schema values are never
overwritten by a hint). -/
theorem c9_hint_first_writer_wins (schema : Json) (pointer : String) (value : Json) :
    let sp := translatePointer pointer
    let gp := (JsonPointer.parse sp).dropLast.dropLast
    let key := JsonPointer.toKey sp
    let ip := if key = "ui:order" then JsonPointer.parse sp
      else gp ++ ["x-schema-form", if key.take 3 = "ui:" then key.drop 3 else key]
    (hasValue value = true → hasValueStr pointer = true →
      JsonPointer.jHas schema gp = true → JsonPointer.jHas schema ip = false →
      hintStep schema pointer value = JsonPointer.jSet schema ip value) ∧
    (JsonPointer.jHas schema ip = true → hintStep schema pointer value = schema) ∧
    (JsonPointer.jHas schema gp = false → hintStep schema pointer value = schema) ∧
    (hasValue value = false ∨ hasValueStr pointer = false →
      hintStep schema pointer value = schema) := by
  intro sp gp key ip
  refine ⟨?_, ?_, ?_, ?_⟩
  · intro hv hpv hgp hip
    simp [hintStep, hv, hpv, hgp, hip]
  · intro hip
    unfold hintStep
    split
    · rw [if_neg]
      simp [hip]
    · rfl
  · intro hgp
    unfold hintStep
    split
    · rw [if_neg]
      simp [hgp]
    · rfl
  · intro hv
    unfold hintStep
    rw [if_neg]
    rcases hv with hv | hv <;> simp [hv]

/-- Witness for C9: a ui:widget hint lands in the x-schema-form bag of
its field with the ui: prefix stripped. -/
theorem c9_witness :
    hintStep (Json.obj [("properties", Json.obj [("a",
        Json.obj [("type", Json.str "string")])])])
      "/a/ui:widget" (Json.str "textarea") =
    JsonPointer.jSet (Json.obj [("properties", Json.obj [("a",
        Json.obj [("type", Json.str "string")])])])
      ["properties", "a", "x-schema-form", "widget"] (Json.str "textarea") :=
  (c9_hint_first_writer_wins (Json.obj [("properties", Json.obj [("a",
      Json.obj [("type", Json.str "string")])])])
    "/a/ui:widget" (Json.str "textarea")).1 rfl rfl rfl rfl

/-- C10: when all six of the schema, layout, data, form, JSONSchema and
UISchema inputs are absent, initializeForm is a complete no-op: the
component state is returned unchanged and no event is emitted, even when
model, formData or options are supplied. -/
theorem c10_initializeForm_noop (inp : Inputs) (st : CState)
    (h1 : inp.schema = Json.null) (h2 : inp.layout = Json.null)
    (h3 : inp.data = Json.null) (h4 : inp.form = Json.null)
    (h5 : inp.JSONSchema = Json.null) (h6 : inp.UISchema = Json.null) :
    initializeForm inp st = (st, []) := by
  have hp : inputsPresent inp = false := by
    simp [inputsPresent, h1, h2, h3, h4, h5, h6, truthy]
  unfold initializeForm
  rw [if_neg]
  simp [hp]

/-- Witness for C10: supplying only model, options and formData leaves
the state untouched and emits nothing. -/
theorem c10_witness :
    initializeForm
      { model := Json.obj [("x", Json.num 1)], options := Json.obj [("debug", Json.bool true)], formData := Json.obj [("y", Json.num 2)] }
      {} = ({}, []) :=
  c10_initializeForm_noop
    { model := Json.obj [("x", Json.num 1)], options := Json.obj [("debug", Json.bool true)], formData := Json.obj [("y", Json.num 2)] }
    {} rfl rfl rfl rfl rfl rfl

end JsonForm
